import Mathlib

/-!
# Wait-Spawner: a shallow embedding

A model of the `wait_spawner` crate.  The crate root (`src/lib.rs`) is
present in the repository; the bodies of its two modules
(`caller_info.rs`, `wait_spawner.rs`) are not, so the behaviour of the
spawner is modelled from the specification's words: caller-info capture,
a registry of task records keyed by monotonically increasing task ids,
spawn/completion/cancellation transitions, and a `wait_all` join barrier
resolved by a generation-counter snapshot taken at entry.
-/

namespace WaitSpawnerModel

/-- Modelled from the spec: `CallerInfo` (the file `caller_info.rs` is not
among the repository's files) — an immutable value holding a file
identifier (string), a line number (unsigned integer) and an optional
free-text label. -/
structure CallerInfo where
  file : String
  line : Nat
  label : Option String
  deriving DecidableEq, Repr

/-- Modelled from the spec: `capture(file, line, label?) -> CallerInfo`.
Pure, side-effect-free, never fails. -/
def CallerInfo.capture (file : String) (line : Nat) (label : Option String) :
    CallerInfo :=
  { file := file, line := line, label := label }

/-- Modelled from the spec: structural formatting of a caller-info value. -/
def CallerInfo.format (ci : CallerInfo) : String :=
  match ci.label with
  | none => ci.file ++ ":" ++ toString ci.line
  | some lab => ci.file ++ ":" ++ toString ci.line ++ " (" ++ lab ++ ")"

/-- Modelled from the spec: the per-task completion state
`Pending, Succeeded, Failed(error), Cancelled`. -/
inductive TaskState where
  | pending
  | succeeded
  | failed (err : String)
  | cancelled
  deriving DecidableEq, Repr

/-- A state other than `pending` is terminal. -/
def TaskState.isTerminal : TaskState → Bool
  | .pending => false
  | _ => true

/-- Modelled from the spec: `TaskRecord` — one outstanding unit of spawned
work: a unique task id, the `CallerInfo` of its spawn site and a
completion state. -/
structure TaskRecord where
  id : Nat
  caller : CallerInfo
  state : TaskState
  deriving DecidableEq, Repr

/-- Modelled from the spec: `SpawnerState` — the registry (kept in
ascending task-id order), the counter for the next task id, and the
snapshot of an in-flight `wait_all` (`none` when no wait is in flight). -/
structure SpawnerState where
  registry : List TaskRecord
  nextId : Nat
  waiting : Option Nat
  deriving DecidableEq, Repr

/-- The freshly constructed spawner: empty registry, id counter at zero,
no wait in flight. -/
def SpawnerState.init : SpawnerState :=
  { registry := [], nextId := 0, waiting := none }

/-- Modelled from the spec: `SubmissionError` — the executor refused to
accept a unit of work at `spawn` time. -/
inductive SpawnError where
  | submissionRejected
  deriving DecidableEq, Repr

/-- The successful branch of `spawn`: allocate the next task id, append a
`Pending` record for it, bump the id counter. -/
def spawnOkStep (s : SpawnerState) (ci : CallerInfo) : SpawnerState :=
  { registry := s.registry ++ [{ id := s.nextId, caller := ci, state := .pending }]
  , nextId := s.nextId + 1
  , waiting := s.waiting }

/-- Modelled from the spec: `spawn(work, caller_info)`.  The external
executor's verdict on the submission is passed as `accepted`; on
acceptance the new record is registered and the allocated task id
returned, on rejection the error is returned directly and no record is
created. -/
def spawn (s : SpawnerState) (ci : CallerInfo) (accepted : Bool) :
    Except SpawnError (SpawnerState × Nat) :=
  if accepted then .ok (spawnOkStep s ci, s.nextId) else .error .submissionRejected

/-- The completion callback applied to one record: a record with the
delivered task id moves out of `Pending` to `Succeeded` or
`Failed(error)`; a record already in a terminal state is unchanged, as is
every record with a different id. -/
def TaskRecord.applyCompletion (r : TaskRecord) (tid : Nat)
    (outcome : Except String Unit) : TaskRecord :=
  if r.id = tid then
    match r.state with
    | .pending =>
        { r with state := match outcome with
            | .ok _ => .succeeded
            | .error e => .failed e }
    | _ => r
  else r

/-- Modelled from the spec: delivery of the completion signal for task
`tid` to the registry. -/
def deliverCompletion (s : SpawnerState) (tid : Nat)
    (outcome : Except String Unit) : SpawnerState :=
  { s with registry := s.registry.map (fun r => r.applyCompletion tid outcome) }

/-- Cancellation of one record: a `Pending` record becomes `Cancelled`; a
record already in a terminal state is unchanged. -/
def TaskRecord.cancel (r : TaskRecord) : TaskRecord :=
  match r.state with
  | .pending => { r with state := .cancelled }
  | _ => r

/-- Modelled from the spec: `cancel_all()` — best-effort cancellation of
every `Pending` record; no record is removed and no terminal record is
touched. -/
def cancelAll (s : SpawnerState) : SpawnerState :=
  { s with registry := s.registry.map TaskRecord.cancel }

/-- Number of `Pending` records in the registry. -/
def pendingCount (s : SpawnerState) : Nat :=
  s.registry.countP (fun r => decide (r.state = TaskState.pending))

/-- Number of `Pending` records among the tasks covered by snapshot
`snap` (task id strictly below the id counter captured at `wait_all`
entry). -/
def pendingBelow (s : SpawnerState) (snap : Nat) : Nat :=
  s.registry.countP (fun r => decide (r.id < snap ∧ r.state = TaskState.pending))

/-- The records a `wait_all` with snapshot `snap` observes and drains. -/
def drainedBy (s : SpawnerState) (snap : Nat) : List TaskRecord :=
  s.registry.filter (fun r => decide (r.id < snap))

/-- The records a `wait_all` with snapshot `snap` leaves registered for
the next cycle. -/
def retainedBy (s : SpawnerState) (snap : Nat) : List TaskRecord :=
  s.registry.filter (fun r => decide (snap ≤ r.id))

/-- Modelled from the spec: `JoinResult` — count of successes, the
ordered failures (caller info and error, listed in ascending task-id
order), and the number of cancelled tasks. -/
structure JoinResult where
  succeeded : Nat
  failures : List (CallerInfo × String)
  cancelled : Nat
  deriving DecidableEq, Repr

/-- Whether any task covered by the wait was cancelled. -/
def JoinResult.anyCancelled (r : JoinResult) : Bool :=
  decide (r.cancelled ≠ 0)

/-- The empty join result. -/
def JoinResult.empty : JoinResult :=
  { succeeded := 0, failures := [], cancelled := 0 }

/-- The error text of a failed record (and `""` on any other state). -/
def TaskRecord.errText (r : TaskRecord) : String :=
  match r.state with
  | .failed e => e
  | _ => ""

/-- Whether a record is in the `Failed` state. -/
def TaskRecord.isFailed (r : TaskRecord) : Bool :=
  match r.state with
  | .failed _ => true
  | _ => false

/-- Aggregation of a drained batch of records into a `JoinResult`:
successes and cancellations are counted, failures are listed in the
order the records appear (ascending task id). -/
def aggregate (records : List TaskRecord) : JoinResult :=
  { succeeded := records.countP (fun r => decide (r.state = TaskState.succeeded))
  , failures := records.filterMap (fun r =>
      match r.state with
      | TaskState.failed e => some (r.caller, e)
      | _ => none)
  , cancelled := records.countP (fun r => decide (r.state = TaskState.cancelled)) }

/-- Modelled from the spec: entry into `wait_all` — the generation
counter snapshot is taken (the current value of the id counter). -/
def waitEnter (s : SpawnerState) : SpawnerState :=
  { s with waiting := some s.nextId }

/-- Modelled from the spec: the return of a `wait_all` whose snapshot is
`snap` — the covered records are aggregated into the `JoinResult` and
removed from the registry; records past the snapshot stay registered. -/
def waitReturn (s : SpawnerState) (snap : Nat) : JoinResult × SpawnerState :=
  ( aggregate (drainedBy s snap)
  , { registry := retainedBy s snap, nextId := s.nextId, waiting := none } )

/-- Modelled from the spec: a whole `wait_all` call that can return
immediately, taking its snapshot at entry and returning once no covered
task is `Pending`.  `none` when the call would have to suspend. -/
def waitAll (s : SpawnerState) : Option (JoinResult × SpawnerState) :=
  if pendingBelow s s.nextId = 0 then some (waitReturn s s.nextId) else none

/-- The events of the spawner's transition system. -/
inductive Event where
  | spawnOk (ci : CallerInfo)
  | spawnRejected (ci : CallerInfo)
  | complete (tid : Nat) (outcome : Except String Unit)
  | cancelAllEv
  | waitEnterEv
  | waitReturnEv (snap : Nat)
  deriving Repr

/-- Modelled from the spec: one step of the spawner.  `none` means the
event is not enabled in this state: a registered spawn cannot be the
result of a rejected submission and vice versa, `wait_all` entry
requires no wait in flight (single-waiter discipline), and a `wait_all`
with snapshot `snap` may return only when no task covered by `snap` is
still `Pending`. -/
def step (s : SpawnerState) : Event → Option SpawnerState
  | .spawnOk ci =>
      match spawn s ci true with
      | .ok p => some p.1
      | .error _ => none
  | .spawnRejected ci =>
      match spawn s ci false with
      | .ok _ => none
      | .error _ => some s
  | .complete tid outcome => some (deliverCompletion s tid outcome)
  | .cancelAllEv => some (cancelAll s)
  | .waitEnterEv => if s.waiting = none then some (waitEnter s) else none
  | .waitReturnEv snap =>
      if s.waiting = some snap ∧ pendingBelow s snap = 0 then
        some (waitReturn s snap).2
      else none

/-- The states one spawner instance can reach from construction. -/
inductive Reachable : SpawnerState → Prop where
  | init : Reachable SpawnerState.init
  | step {s s' : SpawnerState} (e : Event) :
      Reachable s → step s e = some s' → Reachable s'

/-- A sequence of successfully registered spawns. -/
def spawnMany (s : SpawnerState) (cis : List CallerInfo) : SpawnerState :=
  cis.foldl spawnOkStep s

/-- The completion phase between a batch of spawns and the wait: any
interleaving of completion deliveries and `cancel_all` calls. -/
inductive CompletionSteps : SpawnerState → SpawnerState → Prop where
  | refl {s : SpawnerState} : CompletionSteps s s
  | deliver {s t : SpawnerState} (tid : Nat) (outcome : Except String Unit) :
      CompletionSteps s t → CompletionSteps s (deliverCompletion t tid outcome)
  | cancel {s t : SpawnerState} :
      CompletionSteps s t → CompletionSteps s (cancelAll t)

/-- Registry ids appear in strictly increasing order. -/
def idsSorted (s : SpawnerState) : Prop :=
  s.registry.Pairwise (fun a b => a.id < b.id)

/-- Every registered id is below the id counter. -/
def idsBounded (s : SpawnerState) : Prop :=
  ∀ r ∈ s.registry, r.id < s.nextId

/-- An in-flight wait's snapshot never exceeds the id counter. -/
def snapBounded (s : SpawnerState) : Prop :=
  ∀ snap, s.waiting = some snap → snap ≤ s.nextId

/-- Modelled from the spec: teardown of the instance — discarding it with
`Pending` tasks outstanding is a reportable misuse, never silent. -/
inductive TeardownOutcome where
  | clean
  | misuse (pendingIds : List Nat)
  deriving DecidableEq, Repr

/-- Modelled from the spec: dropping the spawner.  If any record is still
`Pending` the drop reports a `MisuseError` naming the pending task ids;
otherwise it is clean. -/
def teardown (s : SpawnerState) : TeardownOutcome :=
  if (s.registry.filter (fun r => decide (r.state = TaskState.pending))).isEmpty then
    .clean
  else
    .misuse
      ((s.registry.filter (fun r => decide (r.state = TaskState.pending))).map
        (fun r => r.id))

/-- The crate root's item structure: its modules with their visibility
(`true` = declared `pub`) and the names re-exported at the root. -/
structure CrateRoot where
  modules : List (String × Bool)
  rootReexports : List String
  deriving DecidableEq, Repr

/-- The crate root as `src/lib.rs` declares it: `mod caller_info;` and
`mod wait_spawner;` without `pub`, and the single root re-export
`pub use self::wait_spawner::WaitSpawner;`. -/
def libRoot : CrateRoot :=
  { modules := [("caller_info", false), ("wait_spawner", false)]
  , rootReexports := ["WaitSpawner"] }

/-- The names a user of the crate can reach at the crate root: the root
re-exports together with the names of the `pub` modules. -/
def CrateRoot.publicApi (c : CrateRoot) : List String :=
  c.rootReexports ++ (c.modules.filter (fun m => m.2)).map (fun m => m.1)

/-- The record registered under task id `tid`, when there is one. -/
def findRecord (s : SpawnerState) (tid : Nat) : Option TaskRecord :=
  s.registry.find? (fun r => decide (r.id = tid))

/-- The completion state of the record registered under `tid`. -/
def recordState (s : SpawnerState) (tid : Nat) : Option TaskState :=
  (findRecord s tid).map (fun r => r.state)

/-- A family of concrete spawn sites used by the concrete scenarios. -/
def ciW (n : Nat) : CallerInfo :=
  CallerInfo.capture "tasks.rs" n none

/-- Concrete scenario: two spawns, the second fails, the first succeeds,
completions delivered in reverse spawn order. -/
def c1State : SpawnerState :=
  deliverCompletion
    (deliverCompletion (spawnMany SpawnerState.init [ciW 0, ciW 1]) 1
      (Except.error "boom"))
    0 (Except.ok ())

/-- The join result of the two-task scenario. -/
def c1Result : JoinResult :=
  { succeeded := 1, failures := [(ciW 1, "boom")], cancelled := 0 }

/-- The drained spawner the two-task scenario leaves behind. -/
def c1Rest : SpawnerState :=
  { registry := [], nextId := 2, waiting := none }

/-- Concrete scenario: three spawned tasks that all failed, their
completions having been delivered in reverse spawn order. -/
def c2State : SpawnerState :=
  { registry :=
      [ { id := 0, caller := ciW 0, state := .failed "e0" }
      , { id := 1, caller := ciW 1, state := .failed "e1" }
      , { id := 2, caller := ciW 2, state := .failed "e2" } ]
  , nextId := 3, waiting := none }

/-- Concrete scenario: two spawned tasks, the first already succeeded,
the second still pending, no wait in flight. -/
def c5State : SpawnerState :=
  { registry :=
      [ { id := 0, caller := ciW 0, state := .succeeded }
      , { id := 1, caller := ciW 1, state := .pending } ]
  , nextId := 2, waiting := none }

/-- Concrete scenario: a wait with snapshot `1` is in flight, the covered
task already succeeded, and a second task spawned after the snapshot is
still pending. -/
def c7State : SpawnerState :=
  { registry :=
      [ { id := 0, caller := ciW 0, state := .succeeded }
      , { id := 1, caller := ciW 1, state := .pending } ]
  , nextId := 2, waiting := some 1 }

/-! ## Helper lemmas -/

theorem applyCompletion_id (r : TaskRecord) (tid : Nat)
    (outcome : Except String Unit) : (r.applyCompletion tid outcome).id = r.id := by
  unfold TaskRecord.applyCompletion
  split
  · cases h : r.state <;> simp
  · rfl

theorem cancel_id (r : TaskRecord) : (TaskRecord.cancel r).id = r.id := by
  unfold TaskRecord.cancel
  cases h : r.state <;> simp

theorem applyCompletion_terminal (r : TaskRecord) (tid : Nat)
    (outcome : Except String Unit) (h : r.state ≠ TaskState.pending) :
    r.applyCompletion tid outcome = r := by
  unfold TaskRecord.applyCompletion
  split
  · cases hst : r.state <;> simp_all
  · rfl

theorem cancel_terminal (r : TaskRecord) (h : r.state ≠ TaskState.pending) :
    TaskRecord.cancel r = r := by
  unfold TaskRecord.cancel
  cases hst : r.state <;> simp_all

theorem cancel_pending (r : TaskRecord) (h : r.state = TaskState.pending) :
    (TaskRecord.cancel r).state = TaskState.cancelled := by
  unfold TaskRecord.cancel
  rw [h]

/-- The three terminal counts of an aggregated batch of decided records
account for every record exactly once. -/
theorem aggregate_sum (l : List TaskRecord)
    (h : ∀ r ∈ l, r.state ≠ TaskState.pending) :
    (aggregate l).succeeded + (aggregate l).failures.length +
      (aggregate l).cancelled = l.length := by
  induction l with
  | nil => rfl
  | cons r l ih =>
      have hr : r.state ≠ TaskState.pending := h r (List.mem_cons_self r l)
      have ihl := ih (fun x hx => h x (List.mem_cons_of_mem r hx))
      cases hst : r.state with
      | pending => exact absurd hst hr
      | succeeded =>
          simp only [aggregate] at ihl ⊢
          simp [List.countP_cons, List.filterMap_cons, hst]
          omega
      | failed e =>
          simp only [aggregate] at ihl ⊢
          simp [List.countP_cons, List.filterMap_cons, hst]
          omega
      | cancelled =>
          simp only [aggregate] at ihl ⊢
          simp [List.countP_cons, List.filterMap_cons, hst]
          omega

/-- The failures of an aggregated batch are exactly the projections of
its `Failed` records, in the order the records appear. -/
theorem aggregate_failures (l : List TaskRecord) :
    (aggregate l).failures =
      (l.filter TaskRecord.isFailed).map (fun r => (r.caller, r.errText)) := by
  induction l with
  | nil => rfl
  | cons r l ih =>
      cases hst : r.state <;>
        simp only [aggregate, List.filterMap_cons, List.filter_cons, hst,
          TaskRecord.isFailed, TaskRecord.errText] at ih ⊢ <;>
        simp_all

/-- `find?` by task id through a map whose function preserves ids. -/
theorem find?_map_id_preserving (l : List TaskRecord)
    (f : TaskRecord → TaskRecord) (hf : ∀ r, (f r).id = r.id) (tid : Nat) :
    (l.map f).find? (fun r => decide (r.id = tid)) =
      (l.find? (fun r => decide (r.id = tid))).map f := by
  rw [List.find?_map]
  have hp : ((fun r : TaskRecord => decide (r.id = tid)) ∘ f) =
      (fun r : TaskRecord => decide (r.id = tid)) := by
    funext r
    simp [Function.comp, hf r]
  rw [hp]

/-- In a list whose ids are strictly increasing, two members with the
same id are the same record. -/
theorem pairwise_id_unique {l : List TaskRecord}
    (hl : l.Pairwise (fun a b => a.id < b.id)) {a b : TaskRecord}
    (ha : a ∈ l) (hb : b ∈ l) (hab : a.id = b.id) : a = b := by
  induction l with
  | nil => cases ha
  | cons x l ih =>
      rcases List.pairwise_cons.mp hl with ⟨hx, hl'⟩
      rcases List.mem_cons.mp ha with rfl | ha' <;>
        rcases List.mem_cons.mp hb with rfl | hb'
      · rfl
      · exact absurd hab (Nat.ne_of_lt (hx b hb'))
      · exact absurd hab.symm (Nat.ne_of_lt (hx a ha'))
      · exact ih hl' ha' hb'

/-- Every enabled step preserves the registry's strict id ordering and
the bound of registered ids by the id counter. -/
theorem step_preserves_inv {s s' : SpawnerState} (e : Event)
    (hsorted : idsSorted s) (hbounded : idsBounded s)
    (hstep : step s e = some s') : idsSorted s' ∧ idsBounded s' := by
  cases e with
  | spawnOk ci =>
      simp only [step, spawn, if_pos, Option.some.injEq] at hstep
      subst hstep
      constructor
      · refine List.pairwise_append.mpr ⟨hsorted, List.pairwise_singleton _ _, ?_⟩
        intro a ha b hb
        rcases List.mem_singleton.mp hb with rfl
        exact hbounded a ha
      · intro r hr
        rcases List.mem_append.mp hr with h | h
        · exact Nat.lt_succ_of_lt (hbounded r h)
        · rcases List.mem_singleton.mp h with rfl
          exact Nat.lt_succ_self _
  | spawnRejected ci =>
      simp only [step, spawn] at hstep
      simp only [Bool.false_eq_true, if_false, Option.some.injEq] at hstep
      subst hstep
      exact ⟨hsorted, hbounded⟩
  | complete tid outcome =>
      simp only [step, Option.some.injEq] at hstep
      subst hstep
      constructor
      · exact List.pairwise_map.mpr (hsorted.imp (fun h => by
          rwa [applyCompletion_id, applyCompletion_id]))
      · intro r hr
        rcases List.mem_map.mp hr with ⟨x, hx, rfl⟩
        rw [applyCompletion_id]
        exact hbounded x hx
  | cancelAllEv =>
      simp only [step, Option.some.injEq] at hstep
      subst hstep
      constructor
      · exact List.pairwise_map.mpr (hsorted.imp (fun h => by
          rwa [cancel_id, cancel_id]))
      · intro r hr
        rcases List.mem_map.mp hr with ⟨x, hx, rfl⟩
        rw [cancel_id]
        exact hbounded x hx
  | waitEnterEv =>
      simp only [step] at hstep
      split at hstep
      · rcases Option.some.injEq _ _ |>.mp hstep with rfl
        exact ⟨hsorted, hbounded⟩
      · cases hstep
  | waitReturnEv snap =>
      simp only [step] at hstep
      split at hstep
      · rcases Option.some.injEq _ _ |>.mp hstep with rfl
        constructor
        · exact hsorted.sublist (List.filter_sublist _)
        · intro r hr
          exact hbounded r (List.mem_of_mem_filter hr)
      · cases hstep

/-- The id counter never decreases along a step. -/
theorem step_nextId_mono {s s' : SpawnerState} (e : Event)
    (hstep : step s e = some s') : s.nextId ≤ s'.nextId := by
  cases e with
  | spawnOk ci =>
      simp only [step, spawn, if_pos, Option.some.injEq] at hstep
      subst hstep
      exact Nat.le_succ _
  | spawnRejected ci =>
      simp only [step, spawn] at hstep
      simp only [Bool.false_eq_true, if_false, Option.some.injEq] at hstep
      subst hstep
      exact Nat.le_refl _
  | complete tid outcome =>
      simp only [step, Option.some.injEq] at hstep
      subst hstep
      exact Nat.le_refl _
  | cancelAllEv =>
      simp only [step, Option.some.injEq] at hstep
      subst hstep
      exact Nat.le_refl _
  | waitEnterEv =>
      simp only [step] at hstep
      split at hstep
      · rcases Option.some.injEq _ _ |>.mp hstep with rfl
        exact Nat.le_refl _
      · cases hstep
  | waitReturnEv snap =>
      simp only [step] at hstep
      split at hstep
      · rcases Option.some.injEq _ _ |>.mp hstep with rfl
        exact Nat.le_refl _
      · cases hstep

/-- Every reachable state has a strictly id-sorted registry whose ids
are all below the id counter. -/
theorem reachable_inv {s : SpawnerState} (h : Reachable s) :
    idsSorted s ∧ idsBounded s := by
  induction h with
  | init =>
      exact ⟨List.Pairwise.nil, fun r hr => absurd hr (List.not_mem_nil r)⟩
  | step e _ hstep ih =>
      exact step_preserves_inv e ih.1 ih.2 hstep

theorem spawnOkStep_idsBounded {s : SpawnerState} (ci : CallerInfo)
    (hb : idsBounded s) : idsBounded (spawnOkStep s ci) := by
  intro r hr
  rcases List.mem_append.mp hr with h | h
  · exact Nat.lt_succ_of_lt (hb r h)
  · rcases List.mem_singleton.mp h with rfl
    exact Nat.lt_succ_self _

theorem spawnMany_idsBounded (cis : List CallerInfo) {s : SpawnerState}
    (hb : idsBounded s) : idsBounded (spawnMany s cis) := by
  induction cis generalizing s with
  | nil => exact hb
  | cons ci cis ih => exact ih (spawnOkStep_idsBounded ci hb)

theorem spawnMany_registry_length (cis : List CallerInfo) (s : SpawnerState) :
    (spawnMany s cis).registry.length = s.registry.length + cis.length := by
  induction cis generalizing s with
  | nil => rfl
  | cons ci cis ih =>
      have h := ih (spawnOkStep s ci)
      simp only [spawnMany, List.foldl_cons] at h ⊢
      rw [h]
      simp [spawnOkStep]
      omega

theorem completionSteps_registry_length {s t : SpawnerState}
    (h : CompletionSteps s t) : t.registry.length = s.registry.length := by
  induction h with
  | refl => rfl
  | deliver tid outcome _ ih =>
      simpa [deliverCompletion] using ih
  | cancel _ ih =>
      simpa [cancelAll] using ih

theorem completionSteps_nextId {s t : SpawnerState}
    (h : CompletionSteps s t) : t.nextId = s.nextId := by
  induction h with
  | refl => rfl
  | deliver tid outcome _ ih => simpa [deliverCompletion] using ih
  | cancel _ ih => simpa [cancelAll] using ih

theorem completionSteps_idsBounded {s t : SpawnerState}
    (h : CompletionSteps s t) (hb : idsBounded s) : idsBounded t := by
  induction h with
  | refl => exact hb
  | deliver tid outcome _ ih =>
      intro r hr
      rcases List.mem_map.mp hr with ⟨x, hx, rfl⟩
      simp only [deliverCompletion]
      rw [applyCompletion_id]
      exact ih x hx
  | cancel _ ih =>
      intro r hr
      rcases List.mem_map.mp hr with ⟨x, hx, rfl⟩
      simp only [cancelAll]
      rw [cancel_id]
      exact ih x hx

/-- When every registered id is below the snapshot, the wait drains the
whole registry. -/
theorem drainedBy_eq_registry {s : SpawnerState} {snap : Nat}
    (hb : ∀ r ∈ s.registry, r.id < snap) : drainedBy s snap = s.registry := by
  apply List.filter_eq_self.mpr
  intro r hr
  exact decide_eq_true (hb r hr)

/-- When no covered task is pending, every drained record is decided. -/
theorem drained_not_pending {s : SpawnerState} {snap : Nat}
    (hp : pendingBelow s snap = 0) :
    ∀ r ∈ drainedBy s snap, r.state ≠ TaskState.pending := by
  intro r hr
  have hmem := List.mem_of_mem_filter hr
  have hlt : r.id < snap := by
    have := List.of_mem_filter hr
    exact of_decide_eq_true this
  have hz := List.countP_eq_zero.mp hp r hmem
  simp at hz
  intro hpend
  exact hz hlt hpend

/-- **C1.** For every sequence of `N` successfully registered spawns on a
fresh spawner followed by any interleaving of completion deliveries and
cancellations, a `wait_all` that returns yields a `JoinResult` whose
succeeded count plus number of reported failures plus number of
cancelled tasks is exactly `N`; in particular for `N = 0` the result is
the empty `JoinResult`. -/
theorem spawn_then_waitAll_accounts_all_tasks
    (cis : List CallerInfo) (s s' : SpawnerState) (r : JoinResult)
    (hcomp : CompletionSteps (spawnMany SpawnerState.init cis) s)
    (hwait : waitAll s = some (r, s')) :
    r.succeeded + r.failures.length + r.cancelled = cis.length ∧
      (cis = [] → r = JoinResult.empty) := by
  have hb0 : idsBounded SpawnerState.init := by
    intro x hx
    exact absurd hx (List.not_mem_nil x)
  have hb : idsBounded s :=
    completionSteps_idsBounded hcomp (spawnMany_idsBounded cis hb0)
  unfold waitAll at hwait
  split at hwait
  case isTrue hp =>
    have hpair := Option.some.injEq _ _ |>.mp hwait
    have hr : r = aggregate (drainedBy s s.nextId) := by
      have := congrArg Prod.fst hpair
      simpa [waitReturn] using this.symm
    have hdrain : drainedBy s s.nextId = s.registry := drainedBy_eq_registry hb
    have hlen : s.registry.length = cis.length := by
      have h1 := completionSteps_registry_length hcomp
      have h2 := spawnMany_registry_length cis SpawnerState.init
      have h3 : SpawnerState.init.registry.length = 0 := rfl
      omega
    have hsum := aggregate_sum (drainedBy s s.nextId) (drained_not_pending hp)
    rw [hdrain, hlen] at hsum
    rw [hr, hdrain]
    refine ⟨hsum, ?_⟩
    intro hnil
    subst hnil
    have : s.registry = [] := List.length_eq_zero.mp (by simpa using hlen)
    rw [this]
    rfl
  case isFalse => cases hwait

/-- **C4.** `spawn` fails exactly when the executor rejects the
submission: on rejection the error is returned directly and the spawner
state is unchanged (no record registered), and on acceptance it returns
the new registration; as a total function of the state it never
suspends the caller. -/
theorem spawn_fails_iff_executor_rejects (s : SpawnerState) (ci : CallerInfo) :
    spawn s ci false = Except.error SpawnError.submissionRejected ∧
    step s (Event.spawnRejected ci) = some s ∧
    (∀ accepted : Bool,
      (∃ p, spawn s ci accepted = Except.ok p) ↔ accepted = true) := by
  refine ⟨rfl, rfl, ?_⟩
  intro accepted
  cases accepted <;> simp [spawn]

/-- **C8.** Tearing the spawner down is clean exactly when no record is
still `Pending`; with `Pending` records outstanding it reports a
distinguishable misuse outcome naming exactly the pending task ids, so
the condition never passes silently. -/
theorem teardown_reports_pending_misuse (s : SpawnerState) :
    (teardown s = TeardownOutcome.clean ↔ pendingCount s = 0) ∧
    (0 < pendingCount s →
      teardown s =
        TeardownOutcome.misuse
          ((s.registry.filter
              (fun r => decide (r.state = TaskState.pending))).map
            (fun r => r.id)) ∧
      ∀ ids, teardown s = TeardownOutcome.misuse ids →
        ids.length = pendingCount s) := by
  have hlen : pendingCount s =
      (s.registry.filter
        (fun r => decide (r.state = TaskState.pending))).length := by
    simp [pendingCount, List.countP_eq_length_filter]
  constructor
  · unfold teardown
    split
    case isTrue h =>
      simp only [List.isEmpty_iff] at h
      simp [hlen, h]
    case isFalse h =>
      simp only [List.isEmpty_iff] at h
      constructor
      · intro hc
        cases hc
      · intro hc
        exact absurd (List.length_eq_zero.mp (by rw [hlen] at hc; exact hc)) h
  · intro hpos
    have hne : ¬(s.registry.filter
        (fun r => decide (r.state = TaskState.pending))).isEmpty := by
      simp only [List.isEmpty_iff]
      intro h
      rw [hlen, h] at hpos
      simp at hpos
    constructor
    · unfold teardown
      simp only [hne, if_false]
      simp at hne
      simp [hne]
    · intro ids hids
      unfold teardown at hids
      split at hids
      · cases hids
      · cases hids
        simp [hlen]

/-- **C9 (amended).** The crate root's caller-facing surface is exactly
the `WaitSpawner` type: both modules are declared without `pub` and the
only root re-export is `WaitSpawner`, so neither `CallerInfo` nor its
`capture` constructor is reachable by users of the crate. -/
theorem public_api_is_waitSpawner_only :
    libRoot.publicApi = ["WaitSpawner"] ∧
    "WaitSpawner" ∈ libRoot.publicApi ∧
    "CallerInfo" ∉ libRoot.publicApi ∧
    ∀ m ∈ libRoot.modules, m.2 = false := by
  decide

/-- **C9 (counterexample).** Contrary to the claim, `CallerInfo` and its
`capture` constructor are not part of the crate's public interface:
`src/lib.rs` declares `mod caller_info;` privately and re-exports only
`WaitSpawner`. -/
theorem callerInfo_capture_not_public :
    "CallerInfo" ∉ libRoot.publicApi ∧
    "CallerInfo::capture" ∉ libRoot.publicApi ∧
    "capture" ∉ libRoot.publicApi ∧
    ("caller_info", false) ∈ libRoot.modules := by
  decide

/-- **C10.** `CallerInfo.capture` is a total pure constructor: it simply
packages its inputs (so it cannot fail), equality of captures is
structural in the file, line and label, and equal inputs format
identically. -/
theorem capture_pure_structural (f f' : String) (l l' : Nat)
    (lab lab' : Option String) :
    (CallerInfo.capture f l lab).file = f ∧
    (CallerInfo.capture f l lab).line = l ∧
    (CallerInfo.capture f l lab).label = lab ∧
    ((CallerInfo.capture f l lab = CallerInfo.capture f' l' lab') ↔
      (f = f' ∧ l = l' ∧ lab = lab')) ∧
    ((f = f' ∧ l = l' ∧ lab = lab') →
      CallerInfo.format (CallerInfo.capture f l lab) =
        CallerInfo.format (CallerInfo.capture f' l' lab')) := by
  refine ⟨rfl, rfl, rfl, ?_, ?_⟩
  · simp [CallerInfo.capture, CallerInfo.mk.injEq]
  · rintro ⟨rfl, rfl, rfl⟩
    rfl

/-! ## Reachability of the concrete scenarios -/

theorem c2State_reachable : Reachable c2State := by
  have h0 : Reachable SpawnerState.init := Reachable.init
  have h1 : Reachable
      { registry := [{ id := 0, caller := ciW 0, state := .pending }]
      , nextId := 1, waiting := none } :=
    Reachable.step (Event.spawnOk (ciW 0)) h0 (by decide)
  have h2 : Reachable
      { registry :=
          [ { id := 0, caller := ciW 0, state := .pending }
          , { id := 1, caller := ciW 1, state := .pending } ]
      , nextId := 2, waiting := none } :=
    Reachable.step (Event.spawnOk (ciW 1)) h1 (by decide)
  have h3 : Reachable
      { registry :=
          [ { id := 0, caller := ciW 0, state := .pending }
          , { id := 1, caller := ciW 1, state := .pending }
          , { id := 2, caller := ciW 2, state := .pending } ]
      , nextId := 3, waiting := none } :=
    Reachable.step (Event.spawnOk (ciW 2)) h2 (by decide)
  have h4 : Reachable
      { registry :=
          [ { id := 0, caller := ciW 0, state := .pending }
          , { id := 1, caller := ciW 1, state := .pending }
          , { id := 2, caller := ciW 2, state := .failed "e2" } ]
      , nextId := 3, waiting := none } :=
    Reachable.step (Event.complete 2 (Except.error "e2")) h3 (by decide)
  have h5 : Reachable
      { registry :=
          [ { id := 0, caller := ciW 0, state := .pending }
          , { id := 1, caller := ciW 1, state := .failed "e1" }
          , { id := 2, caller := ciW 2, state := .failed "e2" } ]
      , nextId := 3, waiting := none } :=
    Reachable.step (Event.complete 1 (Except.error "e1")) h4 (by decide)
  exact Reachable.step (Event.complete 0 (Except.error "e0")) h5 (by decide)

theorem c5State_reachable : Reachable c5State := by
  have h0 : Reachable SpawnerState.init := Reachable.init
  have h1 : Reachable
      { registry := [{ id := 0, caller := ciW 0, state := .pending }]
      , nextId := 1, waiting := none } :=
    Reachable.step (Event.spawnOk (ciW 0)) h0 (by decide)
  have h2 : Reachable
      { registry :=
          [ { id := 0, caller := ciW 0, state := .pending }
          , { id := 1, caller := ciW 1, state := .pending } ]
      , nextId := 2, waiting := none } :=
    Reachable.step (Event.spawnOk (ciW 1)) h1 (by decide)
  exact Reachable.step (Event.complete 0 (Except.ok ())) h2 (by decide)

theorem c7State_reachable : Reachable c7State := by
  have h0 : Reachable SpawnerState.init := Reachable.init
  have h1 : Reachable
      { registry := [{ id := 0, caller := ciW 0, state := .pending }]
      , nextId := 1, waiting := none } :=
    Reachable.step (Event.spawnOk (ciW 0)) h0 (by decide)
  have h2 : Reachable
      { registry := [{ id := 0, caller := ciW 0, state := .pending }]
      , nextId := 1, waiting := some 1 } :=
    Reachable.step Event.waitEnterEv h1 (by decide)
  have h3 : Reachable
      { registry := [{ id := 0, caller := ciW 0, state := .succeeded }]
      , nextId := 1, waiting := some 1 } :=
    Reachable.step (Event.complete 0 (Except.ok ())) h2 (by decide)
  exact Reachable.step (Event.spawnOk (ciW 1)) h3 (by decide)

theorem spawn_then_waitAll_accounts_witness :
    c1Result.succeeded + c1Result.failures.length + c1Result.cancelled = 2 :=
  (spawn_then_waitAll_accounts_all_tasks [ciW 0, ciW 1] c1State c1Rest c1Result
      (CompletionSteps.deliver 0 (Except.ok ())
        (CompletionSteps.deliver 1 (Except.error "boom") CompletionSteps.refl))
      (by decide)).1

/-- **C2.** In every reachable state, the failures of the `JoinResult` a
`wait_all` with snapshot `snap` returns are exactly the `Failed` records
it drains, projected in registry order — and the drained failed records
are pairwise strictly increasing in task id, i.e. listed in spawn order,
whatever order their completions arrived in. -/
theorem waitAll_failures_in_spawn_order {s : SpawnerState} (snap : Nat)
    (hreach : Reachable s) :
    (waitReturn s snap).1.failures =
      ((drainedBy s snap).filter TaskRecord.isFailed).map
        (fun r => (r.caller, r.errText)) ∧
    ((drainedBy s snap).filter TaskRecord.isFailed).Pairwise
      (fun a b => a.id < b.id) := by
  have hsorted := (reachable_inv hreach).1
  constructor
  · exact aggregate_failures (drainedBy s snap)
  · exact hsorted.sublist
      (((drainedBy s snap).filter_sublist).trans (s.registry.filter_sublist))

theorem waitAll_failures_in_spawn_order_witness :
    ((waitReturn c2State 3).1.failures =
        ((drainedBy c2State 3).filter TaskRecord.isFailed).map
          (fun r => (r.caller, r.errText)) ∧
      ((drainedBy c2State 3).filter TaskRecord.isFailed).Pairwise
        (fun a b => a.id < b.id)) ∧
    (waitReturn c2State 3).1.failures =
      [(ciW 0, "e0"), (ciW 1, "e1"), (ciW 2, "e2")] :=
  ⟨waitAll_failures_in_spawn_order 3 c2State_reachable, by decide⟩

/-- **C3.** A returning `wait_all` with snapshot `snap` drains exactly
the tasks below the snapshot boundary: every registered record with
`id < snap` is among the drained records aggregated into the result and
is gone from the registry afterwards, every record with `id ≥ snap`
stays registered and is not drained, and every retained record is
covered by the next `wait_all` cycle's snapshot. -/
theorem waitAll_drains_snapshot_defers_rest {s s' : SpawnerState}
    {snap : Nat} (hreach : Reachable s)
    (hstep : step s (Event.waitReturnEv snap) = some s') :
    (∀ r ∈ s.registry, r.id < snap →
      r ∈ drainedBy s snap ∧ r ∉ s'.registry) ∧
    (∀ r ∈ s.registry, snap ≤ r.id →
      r ∈ s'.registry ∧ r ∉ drainedBy s snap) ∧
    s'.registry = retainedBy s snap ∧
    (waitReturn s snap).1 = aggregate (drainedBy s snap) ∧
    (∀ r ∈ s'.registry, r ∈ drainedBy (waitEnter s') s'.nextId) := by
  have hb := (reachable_inv hreach).2
  simp only [step] at hstep
  split at hstep
  case isTrue h =>
    have hs' : s' = (waitReturn s snap).2 :=
      (Option.some.injEq _ _ |>.mp hstep).symm
    subst hs'
    refine ⟨?_, ?_, rfl, rfl, ?_⟩
    · intro r hr hlt
      refine ⟨List.mem_filter.mpr ⟨hr, decide_eq_true hlt⟩, ?_⟩
      intro hmem
      simp only [waitReturn, retainedBy] at hmem
      have hp := List.of_mem_filter hmem
      have hge : snap ≤ r.id := of_decide_eq_true hp
      omega
    · intro r hr hge
      refine ⟨List.mem_filter.mpr ⟨hr, decide_eq_true hge⟩, ?_⟩
      intro hmem
      simp only [drainedBy] at hmem
      have hp := List.of_mem_filter hmem
      have hlt : r.id < snap := of_decide_eq_true hp
      omega
    · intro r hr
      have hmem : r ∈ s.registry := List.mem_of_mem_filter hr
      exact List.mem_filter.mpr ⟨hr, decide_eq_true (hb r hmem)⟩
  case isFalse => cases hstep

theorem waitAll_drains_snapshot_witness :
    (∀ r ∈ c7State.registry, r.id < 1 →
      r ∈ drainedBy c7State 1 ∧ r ∉ (waitReturn c7State 1).2.registry) ∧
    (∀ r ∈ c7State.registry, 1 ≤ r.id →
      r ∈ (waitReturn c7State 1).2.registry ∧ r ∉ drainedBy c7State 1) ∧
    (waitReturn c7State 1).2.registry = retainedBy c7State 1 ∧
    (waitReturn c7State 1).1 = aggregate (drainedBy c7State 1) ∧
    (∀ r ∈ (waitReturn c7State 1).2.registry,
      r ∈ drainedBy (waitEnter (waitReturn c7State 1).2)
            (waitReturn c7State 1).2.nextId) :=
  waitAll_drains_snapshot_defers_rest c7State_reachable (by decide)

theorem cancel_not_pending (r : TaskRecord) :
    (TaskRecord.cancel r).state ≠ TaskState.pending := by
  unfold TaskRecord.cancel
  cases h : r.state <;> simp [h]

/-- **C5 (counterexample).** A reachable spawner with `K = 1` pending
task (its other, already-succeeded task still undrained) yields, after
`cancel_all` and the following `wait_all`, a result whose
`cancelled + succeeded + failed` is `2`, not `K = 1`: the claim's count
is off whenever completed-but-undrained records are present. -/
theorem cancelAll_k_accounting_counterexample :
    Reachable c5State ∧ pendingCount c5State = 1 ∧
    (waitAll (cancelAll c5State)).map
        (fun p => p.1.succeeded + p.1.failures.length + p.1.cancelled) =
      some 2 :=
  ⟨c5State_reachable, by decide, by decide⟩

/-- **C5 (amended).** `cancel_all` transitions exactly the still-pending
records to `Cancelled`, leaves records that already completed in their
`Succeeded`/`Failed` state, removes nothing and does not touch the id
counter; afterwards no record is pending, so the subsequent `wait_all`
returns at once with `cancelled + succeeded + failed` equal to the
number of registered (undrained) tasks — which is `K` exactly when all
`K` registered tasks were pending. -/
theorem cancelAll_best_effort_accounting {s : SpawnerState}
    (hreach : Reachable s) :
    (cancelAll s).registry = s.registry.map TaskRecord.cancel ∧
    (cancelAll s).registry.length = s.registry.length ∧
    (cancelAll s).nextId = s.nextId ∧
    (∀ r ∈ s.registry, r.state = TaskState.pending →
      TaskRecord.cancel r =
        { id := r.id, caller := r.caller, state := TaskState.cancelled }) ∧
    (∀ r ∈ s.registry, r.state ≠ TaskState.pending →
      TaskRecord.cancel r = r) ∧
    pendingCount (cancelAll s) = 0 ∧
    (∃ res rest, waitAll (cancelAll s) = some (res, rest) ∧
      res.succeeded + res.failures.length + res.cancelled =
        s.registry.length) ∧
    ((∀ r ∈ s.registry, r.state = TaskState.pending) →
      pendingCount s = s.registry.length) := by
  have hb := (reachable_inv hreach).2
  have hb' : idsBounded (cancelAll s) := by
    intro r hr
    rcases List.mem_map.mp hr with ⟨x, hx, rfl⟩
    simp only [cancelAll]
    rw [cancel_id]
    exact hb x hx
  have hnp : ∀ r ∈ (cancelAll s).registry, r.state ≠ TaskState.pending := by
    intro r hr
    rcases List.mem_map.mp hr with ⟨x, hx, rfl⟩
    exact cancel_not_pending x
  have hpc : pendingCount (cancelAll s) = 0 :=
    List.countP_eq_zero.mpr (fun r hr => by simpa using hnp r hr)
  have hpb : pendingBelow (cancelAll s) (cancelAll s).nextId = 0 :=
    List.countP_eq_zero.mpr (fun r hr => by simp; intro _; exact hnp r hr)
  refine ⟨rfl, by simp [cancelAll], rfl, ?_, ?_, hpc, ?_, ?_⟩
  · intro r hr hpend
    simp [TaskRecord.cancel, hpend]
  · intro r hr hterm
    exact cancel_terminal r hterm
  · refine ⟨(waitReturn (cancelAll s) (cancelAll s).nextId).1,
      (waitReturn (cancelAll s) (cancelAll s).nextId).2, ?_, ?_⟩
    · unfold waitAll
      rw [if_pos hpb]
    · have hdrain : drainedBy (cancelAll s) (cancelAll s).nextId =
          (cancelAll s).registry := drainedBy_eq_registry hb'
      have hsum := aggregate_sum (drainedBy (cancelAll s) (cancelAll s).nextId)
        (drained_not_pending hpb)
      rw [hdrain] at hsum
      have hlen : (cancelAll s).registry.length = s.registry.length := by
        simp [cancelAll]
      simp only [waitReturn]
      rw [hdrain, hsum, hlen]
  · intro hall
    exact List.countP_eq_length.mpr
      (fun r hr => decide_eq_true (hall r hr))

theorem cancelAll_best_effort_witness :
    pendingCount (cancelAll c5State) = 0 ∧
    (∃ res rest, waitAll (cancelAll c5State) = some (res, rest) ∧
      res.succeeded + res.failures.length + res.cancelled =
        c5State.registry.length) :=
  ⟨(cancelAll_best_effort_accounting c5State_reachable).2.2.2.2.2.1,
    (cancelAll_best_effort_accounting c5State_reachable).2.2.2.2.2.2.1⟩

theorem isTerminal_ne_pending {st : TaskState} (h : st.isTerminal = true) :
    st ≠ TaskState.pending := by
  cases st <;> simp_all [TaskState.isTerminal]

/-- **C6.** Terminal states are stable: in any reachable state, once the
record under a task id holds a terminal state (`Succeeded`, `Failed` or
`Cancelled`), every enabled step either keeps that exact state or
removes the record by draining it — no step returns it to `Pending` or
moves it to a different terminal state. -/
theorem terminal_states_are_stable {s s' : SpawnerState} (e : Event)
    (tid : Nat) (st : TaskState) (hreach : Reachable s)
    (hstep : step s e = some s') (hst : recordState s tid = some st)
    (hterm : st.isTerminal = true) :
    recordState s' tid = some st ∨ recordState s' tid = none := by
  have hne : st ≠ TaskState.pending := isTerminal_ne_pending hterm
  rcases Option.map_eq_some'.mp hst with ⟨r, hfind, hstate⟩
  have hrne : r.state ≠ TaskState.pending := by
    rw [hstate]
    exact hne
  cases e with
  | spawnOk ci =>
      simp only [step, spawn, if_pos, Option.some.injEq] at hstep
      subst hstep
      left
      have hfind' : (spawnOkStep s ci).registry.find?
          (fun x => decide (x.id = tid)) = some r := by
        simp only [spawnOkStep]
        rw [List.find?_append]
        unfold findRecord at hfind
        rw [hfind]
        rfl
      unfold recordState findRecord
      rw [hfind']
      simp [hstate]
  | spawnRejected ci =>
      simp only [step, spawn] at hstep
      simp only [Bool.false_eq_true, if_false, Option.some.injEq] at hstep
      subst hstep
      exact Or.inl hst
  | complete tid' outcome =>
      simp only [step, Option.some.injEq] at hstep
      subst hstep
      left
      unfold recordState findRecord
      simp only [deliverCompletion]
      rw [find?_map_id_preserving s.registry _
        (fun x => applyCompletion_id x tid' outcome) tid]
      unfold findRecord at hfind
      rw [hfind]
      simp only [Option.map_some']
      rw [applyCompletion_terminal r tid' outcome hrne, hstate]
  | cancelAllEv =>
      simp only [step, Option.some.injEq] at hstep
      subst hstep
      left
      unfold recordState findRecord
      simp only [cancelAll]
      rw [find?_map_id_preserving s.registry _ cancel_id tid]
      unfold findRecord at hfind
      rw [hfind]
      simp only [Option.map_some']
      rw [cancel_terminal r hrne, hstate]
  | waitEnterEv =>
      simp only [step] at hstep
      split at hstep
      · rcases Option.some.injEq _ _ |>.mp hstep with rfl
        exact Or.inl hst
      · cases hstep
  | waitReturnEv snap =>
      simp only [step] at hstep
      split at hstep
      · have hs' : s' = (waitReturn s snap).2 :=
          (Option.some.injEq _ _ |>.mp hstep).symm
        subst hs'
        cases hfind' : findRecord (waitReturn s snap).2 tid with
        | none =>
            right
            unfold recordState
            rw [hfind']
            rfl
        | some r2 =>
            left
            have hp' : r2 ∈ (waitReturn s snap).2.registry := by
              unfold findRecord at hfind'
              exact List.mem_of_find?_eq_some hfind'
            have hmem2 : r2 ∈ s.registry := by
              simp only [waitReturn, retainedBy] at hp'
              exact List.mem_of_mem_filter hp'
            have hid2 : r2.id = tid := by
              unfold findRecord at hfind'
              have h2 := List.find?_some hfind'
              exact of_decide_eq_true h2
            have hmem : r ∈ s.registry := by
              unfold findRecord at hfind
              exact List.mem_of_find?_eq_some hfind
            have hid : r.id = tid := by
              unfold findRecord at hfind
              have h1 := List.find?_some hfind
              exact of_decide_eq_true h1
            have hrr : r2 = r :=
              pairwise_id_unique (reachable_inv hreach).1 hmem2 hmem
                (by rw [hid2, hid])
            unfold recordState
            rw [hfind']
            simp [hrr, hstate]
      · cases hstep

theorem terminal_states_are_stable_witness :
    recordState (cancelAll c5State) 0 = some TaskState.succeeded ∨
    recordState (cancelAll c5State) 0 = none :=
  terminal_states_are_stable Event.cancelAllEv 0 TaskState.succeeded
    c5State_reachable (by decide) (by decide) (by decide)

/-- **C7 (counterexample).** A reachable state in which an in-flight
`wait_all` (snapshot `1`) may return — its covered task has succeeded —
while the total count of `Pending` records is `1`, because a task was
spawned after the snapshot: the claim's "Pending count equals 0 exactly
where `wait_all` may return" fails for the total count. -/
theorem pending_count_at_wait_return_counterexample :
    Reachable c7State ∧
    (step c7State (Event.waitReturnEv 1)).isSome = true ∧
    pendingCount c7State = 1 :=
  ⟨c7State_reachable, by decide, by decide⟩

/-- **C7 (amended).** In every reachable state each task id maps to at
most one record; every registered id is below the id counter, `spawn`
allocates exactly the counter's value and bumps it, and the counter
never decreases, so ids are handed out strictly increasingly and never
reused; and an in-flight `wait_all` with snapshot `snap` may return
exactly when the count of `Pending` records among the tasks it covers
(id below `snap`) is zero — tasks spawned after the snapshot may still
be `Pending` at that point. -/
theorem registry_ids_unique_and_snapshot_barrier {s : SpawnerState}
    (hreach : Reachable s) :
    (s.registry.map (fun r => r.id)).Nodup ∧
    (∀ r ∈ s.registry, r.id < s.nextId) ∧
    (∀ ci, step s (Event.spawnOk ci) = some (spawnOkStep s ci) ∧
      (spawnOkStep s ci).nextId = s.nextId + 1 ∧
      { id := s.nextId, caller := ci, state := TaskState.pending } ∈
        (spawnOkStep s ci).registry) ∧
    (∀ e s', step s e = some s' → s.nextId ≤ s'.nextId) ∧
    (∀ snap, s.waiting = some snap →
      ((step s (Event.waitReturnEv snap)).isSome ↔
        pendingBelow s snap = 0)) := by
  have hsorted := (reachable_inv hreach).1
  have hb := (reachable_inv hreach).2
  refine ⟨?_, hb, ?_, ?_, ?_⟩
  · exact List.pairwise_map.mpr (hsorted.imp (fun h => Nat.ne_of_lt h))
  · intro ci
    refine ⟨rfl, rfl, ?_⟩
    exact List.mem_append.mpr (Or.inr (List.mem_singleton.mpr rfl))
  · intro e s' hstep
    exact step_nextId_mono e hstep
  · intro snap hw
    by_cases hp : pendingBelow s snap = 0 <;> simp [step, hw, hp]

theorem registry_ids_unique_witness :
    (c7State.registry.map (fun r => r.id)).Nodup ∧
    (∀ r ∈ c7State.registry, r.id < c7State.nextId) :=
  ⟨(registry_ids_unique_and_snapshot_barrier c7State_reachable).1,
    (registry_ids_unique_and_snapshot_barrier c7State_reachable).2.1⟩

end WaitSpawnerModel
